import Mathlib

set_option maxRecDepth 2048

/-!
Verification of the V20 stock scanner (`v20_scanner.py`).

Prices are modelled as rationals; a trading day is a `Bar` with an
opening and closing price and an abstract date (a natural number, so
that chronological order is just `<`).  Python's `round(x, 2)` is
modelled by `round2`; no theorem below depends on the tie-breaking
behaviour of rounding.  The program's prices are numpy `float64`
values, so dividing by a zero open does not raise — it returns an IEEE
infinity, a value exact rational arithmetic cannot represent.
`find_core` marks that out-of-model path (a green run starting at a
bar with zero open) with `Except.error`, and `classifyLoop` marks the
analogous path (a pattern whose rounded start price is zero) with a
flag; every theorem below stays on the finite side by requiring the
relevant opens and start prices to be nonzero, which is exactly where
the rational model and the floating-point program agree.

Definitions marked `Modelled from the spec` follow the wording of the
specification and exist to be compared with the definitions translated
from the code.
-/

/-- One daily OHLC bar as used by the scanner (only `Open`, `Close`
and the index date are read by the code). -/
structure Bar where
  date : Nat
  Open : ℚ
  Close : ℚ
deriving DecidableEq, Repr

/-- The dictionary appended to `patterns` in `find_20_percent_patterns`. -/
structure Pattern where
  start_date : Nat
  start_price : ℚ
  end_price : ℚ
  gain_percent : ℚ
  candles : Nat
deriving DecidableEq, Repr

/-- Python's `round(x, 2)`: round to two decimal places. -/
def round2 (x : ℚ) : ℚ := (round (x * 100) : ℤ) / 100

/-- A green bar: `Close > Open` (line 68). -/
def green (b : Bar) : Bool := b.Open < b.Close

/-- The inner `while` loop's green-bar counter `consecutive_green`
(lines 66–71): length of the maximal green prefix of the remaining
bars. -/
def runLen : List Bar → Nat
  | [] => 0
  | b :: rest => if green b then runLen rest + 1 else 0

/-- The inner `while` loop's `current_high` accumulator (lines 63–69):
starting from `init`, take the max with each close of the green
prefix. -/
def runMaxClose (init : ℚ) : List Bar → ℚ
  | [] => init
  | b :: rest => if green b then runMaxClose (max init b.Close) rest else init

/-- The `while i < len(df)` loop of `find_20_percent_patterns`
(lines 60–85).  At each cursor position the maximal green run is
measured; for a nonempty run whose start bar has a zero open, line
74's float division yields a non-finite gain that ℚ cannot represent,
so that path is marked `.error` and excluded by hypothesis from every
theorem below; otherwise the gain is computed exactly and the pattern
appended iff it is at least 20.  The cursor then jumps past the run,
or one bar forward for an empty run (line 85). -/
def find_core : List Bar → Except Unit (List Pattern)
  | [] => .ok []
  | b :: rest =>
    if h : green b then
      let g := runLen (b :: rest)
      let high := runMaxClose b.Close (b :: rest)
      if b.Open = 0 then .error ()
      else
        let gain := (high - b.Open) / b.Open * 100
        match find_core ((b :: rest).drop g) with
        | .error e => .error e
        | .ok ps =>
          .ok (if gain ≥ 20 then
                ⟨b.date, round2 b.Open, round2 high, round2 gain, g⟩ :: ps
              else ps)
    else
      find_core rest
termination_by l => l.length
decreasing_by
  · simp only [List.length_drop, List.length_cons]
    have hg : runLen (b :: rest) = runLen rest + 1 := by simp [runLen, h]
    omega
  · simp

/-- The pure part of `find_20_percent_patterns`: the pattern scan
over an already-fetched price series.  The out-of-model marker (a
non-finite gain) is mapped to `[]`; no theorem depends on the value
chosen for that path. -/
def find_20_percent_patterns (df : List Bar) : List Pattern :=
  match find_core df with
  | .ok ps => ps
  | .error _ => []

/-- Modelled from the spec (§4.1, glossary "Run"): the maximal runs of
consecutive green bars of a series, in chronological order. -/
def greenRuns : List Bar → List (List Bar)
  | [] => []
  | b :: rest =>
    if green b then
      (b :: rest.takeWhile green) :: greenRuns (rest.dropWhile green)
    else greenRuns rest
termination_by l => l.length
decreasing_by
  · have := (List.dropWhile_sublist (l := rest) green).length_le
    simp only [List.length_cons]; omega
  · simp

/-- Modelled from the spec (§4.1, step 3): the pattern emitted for one
maximal green run, if the gain from the run's first open to its
running-maximum close is at least 20%. -/
def emitRun : List Bar → Option Pattern
  | [] => none
  | b :: rest =>
    let running_max_close := rest.foldl (fun a c => max a c.Close) b.Close
    let gain_percent := (running_max_close - b.Open) / b.Open * 100
    if gain_percent ≥ 20 then
      some ⟨b.date, round2 b.Open, round2 running_max_close, round2 gain_percent,
            rest.length + 1⟩
    else none

/-- Modelled from the spec (§4.1): the detector's contract — one
pattern per maximal green run whose gain reaches the 20% threshold. -/
def detect_spec (l : List Bar) : List Pattern := (greenRuns l).filterMap emitRun

/-- Number of iterations of the outer `while i < len(df)` loop: the
cursor advances past the run when it is nonempty, else by one bar. -/
def outerSteps : List Bar → Nat
  | [] => 0
  | b :: rest =>
    if h : green b then outerSteps ((b :: rest).drop (runLen (b :: rest))) + 1
    else outerSteps rest + 1
termination_by l => l.length
decreasing_by
  · simp only [List.length_drop, List.length_cons]
    have hg : runLen (b :: rest) = runLen rest + 1 := by simp [runLen, h]
    omega
  · simp

/-- The two alert messages `check_alerts` can build. -/
inductive AlertKind where
  | ACTIVATED
  | NEAR
deriving DecidableEq, Repr

/-- The content of one alert message appended to `self.alerts`. -/
structure Alert where
  kind : AlertKind
  symbol : String
  group : String
  current_price : ℚ
  pattern : Pattern
  sma_200 : Option ℚ
deriving DecidableEq, Repr

/-- The body of the `for pattern in patterns` loop of `check_alerts`
(lines 118–139): the alert appended for one pattern, if any.  The
`start_price = 0` case is handled by `classifyLoop`. -/
def classifyOne (symbol group : String) (current_price : ℚ) (sma_200 : Option ℚ)
    (p : Pattern) : Option Alert :=
  let difference_percent := |(current_price - p.start_price) / p.start_price| * 100
  if difference_percent ≤ 1 then
    some ⟨.ACTIVATED, symbol, group, current_price, p, sma_200⟩
  else if difference_percent ≤ 5 ∧ current_price < p.start_price then
    some ⟨.NEAR, symbol, group, current_price, p, sma_200⟩
  else none

/-- The `for` loop of `check_alerts`: the alerts appended to
`self.alerts`, plus a flag marking the out-of-model path where a
pattern's rounded `start_price` is zero — there line 120's float
division produces a non-finite difference that ℚ cannot represent, so
the model stops at that pattern and raises the flag, and every
classification theorem below excludes the case by requiring nonzero
start prices.  Alerts appended before the marked pattern are kept, as
`self.alerts` is mutated in place. -/
def classifyLoop (symbol group : String) (current_price : ℚ) (sma_200 : Option ℚ) :
    List Pattern → List Alert × Bool
  | [] => ([], false)
  | p :: ps =>
    if p.start_price = 0 then ([], true)
    else
      match classifyOne symbol group current_price sma_200 p with
      | some a =>
        let r := classifyLoop symbol group current_price sma_200 ps
        (a :: r.1, r.2)
      | none => classifyLoop symbol group current_price sma_200 ps

/-- Translation of `check_alerts` (lines 109–139): the alerts appended to
`self.alerts` together with `classifyLoop`'s out-of-model flag.  Empty pattern
list or unknown current price short-circuit (line 111); the `v200`
group additionally requires a known SMA that the current price sits
below (lines 114–116). -/
def check_alerts (symbol group : String) (patterns : List Pattern)
    (current_price : Option ℚ) (sma_200 : Option ℚ) : List Alert × Bool :=
  match current_price with
  | none => ([], false)
  | some cp =>
    if patterns = [] then ([], false)
    else if group = "v200" then
      match sma_200 with
      | none => ([], false)
      | some m =>
        if cp ≥ m then ([], false)
        else classifyLoop symbol group cp sma_200 patterns
    else classifyLoop symbol group cp sma_200 patterns

/-- Modelled from the spec (§4.2): per-pattern classification with the
three mutually exclusive cases written out — ACTIVATED when the
difference is within 1%, NEAR when it is strictly above 1%, within 5%
and the current price is below the start, otherwise nothing. -/
def classifyOneSpec (symbol group : String) (current_price : ℚ) (sma_200 : Option ℚ)
    (p : Pattern) : Option Alert :=
  let d := |(current_price - p.start_price) / p.start_price| * 100
  if d ≤ 1 then
    some ⟨.ACTIVATED, symbol, group, current_price, p, sma_200⟩
  else if 1 < d ∧ d ≤ 5 ∧ current_price < p.start_price then
    some ⟨.NEAR, symbol, group, current_price, p, sma_200⟩
  else none

/-- The external market-data collaborator and the watch-list
configuration seen by one scan: the group → symbols map read from the
spreadsheet, and the two `yfinance` fetches (365-day history for
pattern detection, 220-day history for current price and SMA).
`Except.error` models a fetch that raises. -/
structure Env where
  stocks : List (String × List String)
  history : String → Except Unit (List Bar)
  recent : String → Except Unit (List Bar)

/-- Method `find_20_percent_patterns` as called by `run_scan`: the fetch and
the scan both live inside the method's `try`, whose handler returns
`[]`. -/
def find_20_percent_patterns_fetch (env : Env) (symbol : String) : List Pattern :=
  match env.history symbol with
  | .error _ => []
  | .ok df => find_20_percent_patterns df

/-- Translation of `get_current_price_and_sma` (lines 92–107): last close of the
220-day history, and the rolling mean of the last 200 closes when at
least 200 bars are available.  Python's `if sma_200 else None` also
maps a zero mean to `None`; fetch failures and empty histories yield
`(None, None)`. -/
def get_current_price_and_sma (env : Env) (symbol : String) : Option ℚ × Option ℚ :=
  match env.recent symbol with
  | .error _ => (none, none)
  | .ok df =>
    match df.getLast? with
    | none => (none, none)
    | some lastBar =>
      let sma_200 : Option ℚ :=
        if 200 ≤ df.length then
          some (((df.drop (df.length - 200)).map Bar.Close).sum / 200)
        else none
      (some (round2 lastBar.Close),
       match sma_200 with
       | some m => if m = 0 then none else some (round2 m)
       | none => none)

/-- The scanner object: the only field the core logic reads or writes
is the `alerts` accumulator. -/
structure V20Scanner where
  alerts : List Alert
deriving DecidableEq, Repr

/-- Constructor `V20Scanner.__init__` (lines 22–27): the accumulator starts empty. -/
def V20Scanner.init : V20Scanner := ⟨[]⟩

/-- The body of the per-symbol `try` of `run_scan` (lines 219–254):
detect patterns; when some are found, fetch the current price and SMA
and run `check_alerts`, which appends to `self.alerts`.  The `except`
clause keeps whatever was appended before a failure and moves on, so
`classifyLoop`'s flag is dropped here. -/
def processSymbol (env : Env) (group symbol : String) (st : V20Scanner) : V20Scanner :=
  let patterns := find_20_percent_patterns_fetch env symbol
  if patterns = [] then st
  else
    let pr := get_current_price_and_sma env symbol
    ⟨st.alerts ++ (check_alerts symbol group patterns pr.1 pr.2).1⟩

/-- Translation of `run_scan` (lines 178–279) restricted to its alert-relevant
effect: iterate the groups, then each group's symbols, appending
alerts to the scanner state; the early return at line 204 fires when
the watch-list is empty. -/
def run_scan (env : Env) (st : V20Scanner) : V20Scanner :=
  if env.stocks = [] ∨ ∀ gs ∈ env.stocks, gs.2 = [] then st
  else
    env.stocks.foldl
      (fun s1 gs => gs.2.foldl (fun s2 sym => processSymbol env gs.1 sym s2) s1) st

/-- The alerts one symbol contributes, independently of all others. -/
def symbolAlerts (env : Env) (group symbol : String) : List Alert :=
  (processSymbol env group symbol V20Scanner.init).alerts

/-- All alerts of one scan: the per-symbol contributions concatenated
in watch-list order. -/
def scanAlerts (env : Env) : List Alert :=
  (env.stocks.map (fun gs => (gs.2.map (symbolAlerts env gs.1)).flatten)).flatten

/-- Whether the history fetch for `symbol` raises (the failure is
caught inside `find_20_percent_patterns`'s own handler). -/
def fetchFails (env : Env) (symbol : String) : Bool :=
  match env.history symbol with
  | .error _ => true
  | .ok _ => false

/-- Whether processing `symbol` hits a failure inside the per-symbol
`try` of `run_scan`, as marked by `classifyLoop`'s flag: a pattern
whose rounded start price is zero makes line 120's division
non-finite. -/
def symbolRaises (env : Env) (group symbol : String) : Bool :=
  let patterns := find_20_percent_patterns_fetch env symbol
  if patterns = [] then false
  else
    let pr := get_current_price_and_sma env symbol
    (check_alerts symbol group patterns pr.1 pr.2).2

/-- A minimal market snapshot: one symbol whose history contains one
20% pattern and whose current price has returned to the pattern
start. -/
def env0 : Env where
  stocks := [("v40", ["AAA"])]
  history := fun _ => .ok [⟨0, 100, 125⟩]
  recent := fun _ => .ok [⟨1, 100, 100⟩]

/-- Like `env0` with a preceding symbol whose fetches raise. -/
def env1 : Env where
  stocks := [("v40", ["BAD", "AAA"])]
  history := fun s => if s = "BAD" then .error () else .ok [⟨0, 100, 125⟩]
  recent := fun s => if s = "BAD" then .error () else .ok [⟨1, 100, 100⟩]

example : find_20_percent_patterns [⟨0, 100, 125⟩] = [⟨0, 100, 125, 25, 1⟩] := by
  simp +decide [find_20_percent_patterns, find_core, runLen, runMaxClose, green]
  norm_num [round2]

example : find_20_percent_patterns
    [⟨0, 100, 110⟩, ⟨1, 111, 125⟩, ⟨2, 124, 118⟩] = [⟨0, 100, 125, 25, 2⟩] := by
  simp +decide [find_20_percent_patterns, find_core, runLen, runMaxClose, green]
  norm_num [round2]

example : find_20_percent_patterns [⟨0, 100, 119⟩] = [] := by
  simp +decide [find_20_percent_patterns, find_core, runLen, runMaxClose, green]
  norm_num

theorem runLen_eq_length_takeWhile (l : List Bar) :
    runLen l = (l.takeWhile green).length := by
  induction l with
  | nil => rfl
  | cons b rest ih =>
    by_cases hb : green b <;> simp [runLen, List.takeWhile_cons, hb, ih]

theorem drop_runLen (l : List Bar) : l.drop (runLen l) = l.dropWhile green := by
  induction l with
  | nil => rfl
  | cons b rest ih =>
    by_cases hb : green b <;> simp [runLen, List.dropWhile_cons, hb, ih]

theorem runMaxClose_eq (l : List Bar) : ∀ init : ℚ,
    runMaxClose init l = (l.takeWhile green).foldl (fun a c => max a c.Close) init := by
  induction l with
  | nil => intro _; rfl
  | cons b rest ih =>
    intro init
    by_cases hb : green b <;> simp [runMaxClose, List.takeWhile_cons, hb, ih]

theorem find_core_eq_detect_spec : ∀ l : List Bar, (∀ b ∈ l, b.Open ≠ 0) →
    find_core l = .ok (detect_spec l)
  | [] => fun _ => by simp [find_core, detect_spec, greenRuns]
  | b :: rest => fun h => by
    have h0 : b.Open ≠ 0 := h b (by simp)
    by_cases hb : green b
    · have hrec := find_core_eq_detect_spec (rest.dropWhile green)
        (fun c hc => h c (List.mem_cons_of_mem _ ((List.dropWhile_sublist green).subset hc)))
      have hdrop : (b :: rest).drop (runLen (b :: rest)) = rest.dropWhile green := by
        have h1 := drop_runLen (b :: rest)
        rwa [List.dropWhile_cons, if_pos hb] at h1
      have hlen : runLen (b :: rest) = (rest.takeWhile green).length + 1 := by
        simp [runLen, hb, runLen_eq_length_takeWhile]
      have hmax : runMaxClose b.Close (b :: rest) =
          (rest.takeWhile green).foldl (fun a c => max a c.Close) b.Close := by
        rw [runMaxClose_eq, List.takeWhile_cons, if_pos hb, List.foldl_cons, max_self]
      rw [find_core]
      rw [dif_pos hb, if_neg h0, hdrop, hrec]
      simp only [detect_spec]
      simp only [greenRuns, hb, if_true, List.filterMap_cons]
      simp only [emitRun, hmax, hlen]
      by_cases hgain :
          (List.foldl (fun a c => max a c.Close) b.Close (rest.takeWhile green) - b.Open) /
            b.Open * 100 ≥ 20
      · simp only [if_pos hgain]
      · simp only [if_neg hgain]
    · have hrec := find_core_eq_detect_spec rest
        (fun c hc => h c (List.mem_cons_of_mem _ hc))
      rw [find_core, dif_neg hb, hrec, detect_spec, detect_spec]
      simp only [greenRuns, hb, if_false, Bool.false_eq_true]
termination_by l => l.length
decreasing_by
  all_goals
    (have hd := (List.dropWhile_sublist (l := rest) green).length_le
     simp only [List.length_cons]
     omega)

theorem find_20_eq_detect_spec (l : List Bar) (h : ∀ b ∈ l, b.Open ≠ 0) :
    find_20_percent_patterns l = detect_spec l := by
  unfold find_20_percent_patterns
  rw [find_core_eq_detect_spec l h]

theorem emitRun_start_date {b : Bar} {tl : List Bar} {q : Pattern}
    (h : emitRun (b :: tl) = some q) : q.start_date = b.date := by
  simp only [emitRun] at h
  split at h
  · cases h; rfl
  · cases h

theorem greenRuns_flatten_sublist : ∀ l : List Bar, List.Sublist (greenRuns l).flatten l
  | [] => by simp [greenRuns]
  | b :: rest => by
    by_cases hb : green b
    · simp only [greenRuns, hb, if_true, List.flatten_cons]
      have h1 := greenRuns_flatten_sublist (rest.dropWhile green)
      have h3 : List.Sublist ((rest.takeWhile green) ++ (greenRuns (rest.dropWhile green)).flatten)
          ((rest.takeWhile green) ++ (rest.dropWhile green)) := h1.append_left _
      rw [List.takeWhile_append_dropWhile] at h3
      simpa using h3.cons₂ b
    · simp only [greenRuns, hb, if_false, Bool.false_eq_true]
      exact (greenRuns_flatten_sublist rest).cons b
termination_by l => l.length
decreasing_by
  all_goals
    (have hd := (List.dropWhile_sublist (l := rest) green).length_le
     simp only [List.length_cons]
     omega)

theorem detect_spec_dates : ∀ l : List Bar,
    ∀ p ∈ detect_spec l, ∃ c ∈ l, p.start_date = c.date
  | [] => by simp [detect_spec, greenRuns]
  | b :: rest => by
    intro p hp
    by_cases hb : green b
    · simp only [detect_spec, greenRuns, hb, if_true, List.filterMap_cons] at hp
      cases hemit : emitRun (b :: rest.takeWhile green) with
      | none =>
        rw [hemit] at hp
        obtain ⟨c, hc, hd⟩ := detect_spec_dates (rest.dropWhile green) p hp
        exact ⟨c, List.mem_cons_of_mem _ ((List.dropWhile_sublist green).subset hc), hd⟩
      | some q =>
        rw [hemit] at hp
        rcases List.mem_cons.mp hp with h1 | h1
        · subst h1
          exact ⟨b, by simp, emitRun_start_date hemit⟩
        · obtain ⟨c, hc, hd⟩ := detect_spec_dates (rest.dropWhile green) p h1
          exact ⟨c, List.mem_cons_of_mem _ ((List.dropWhile_sublist green).subset hc), hd⟩
    · simp only [detect_spec, greenRuns, hb, if_false, Bool.false_eq_true] at hp
      obtain ⟨c, hc, hd⟩ := detect_spec_dates rest p hp
      exact ⟨c, List.mem_cons_of_mem _ hc, hd⟩
termination_by l => l.length
decreasing_by
  all_goals
    (have hd := (List.dropWhile_sublist (l := rest) green).length_le
     simp only [List.length_cons]
     omega)

theorem detect_spec_pairwise : ∀ l : List Bar,
    List.Pairwise (fun a c => a.date < c.date) l →
    List.Pairwise (· < ·) ((detect_spec l).map Pattern.start_date)
  | [] => fun _ => by simp [detect_spec, greenRuns]
  | b :: rest => fun hp => by
    by_cases hb : green b
    · have hp' : List.Pairwise (fun a c => a.date < c.date) (rest.dropWhile green) :=
        (List.pairwise_cons.mp hp).2.sublist (List.dropWhile_sublist green)
      have ih := detect_spec_pairwise (rest.dropWhile green) hp'
      simp only [detect_spec, greenRuns, hb, if_true, List.filterMap_cons]
      cases hemit : emitRun (b :: rest.takeWhile green) with
      | none => exact ih
      | some q =>
        show List.Pairwise (· < ·)
          ((q :: List.filterMap emitRun (greenRuns (rest.dropWhile green))).map Pattern.start_date)
        simp only [List.map_cons]
        refine List.pairwise_cons.mpr ⟨?_, ih⟩
        intro d hd
        obtain ⟨p, hpmem, rfl⟩ := List.mem_map.mp hd
        obtain ⟨c, hc, hcd⟩ := detect_spec_dates (rest.dropWhile green) p hpmem
        have hcrest : c ∈ rest := (List.dropWhile_sublist green).subset hc
        have hbd : b.date < c.date := (List.pairwise_cons.mp hp).1 c hcrest
        have hqb : q.start_date = b.date := emitRun_start_date hemit
        omega
    · have ih := detect_spec_pairwise rest (List.pairwise_cons.mp hp).2
      simpa only [detect_spec, greenRuns, hb, if_false, Bool.false_eq_true] using ih
termination_by l => l.length
decreasing_by
  all_goals
    (have hd := (List.dropWhile_sublist (l := rest) green).length_le
     simp only [List.length_cons]
     omega)

theorem greenRuns_head_green : ∀ l : List Bar, ∀ r ∈ greenRuns l,
    ∀ c tl, r = c :: tl → green c = true
  | [] => by simp [greenRuns]
  | b :: rest => by
    by_cases hb : green b
    · intro r hr c tl hrtl
      simp only [greenRuns, hb, if_true, List.mem_cons] at hr
      rcases hr with hr | hr
      · subst hr
        injection hrtl with h1 h2
        rw [← h1]
        exact hb
      · exact greenRuns_head_green (rest.dropWhile green) r hr c tl hrtl
    · intro r hr c tl hrtl
      simp only [greenRuns, hb, if_false, Bool.false_eq_true] at hr
      exact greenRuns_head_green rest r hr c tl hrtl
termination_by l => l.length
decreasing_by
  all_goals
    (have hd := (List.dropWhile_sublist (l := rest) green).length_le
     simp only [List.length_cons]
     omega)

theorem le_foldl_maxClose : ∀ (tl : List Bar) (init : ℚ),
    init ≤ tl.foldl (fun a c => max a c.Close) init
  | [], _ => le_refl _
  | c :: tl, init =>
    le_trans (le_max_left init c.Close) (le_foldl_maxClose tl (max init c.Close))

theorem emitRun_neg_open {b : Bar} (tl : List Bar) (hg : green b = true)
    (hneg : b.Open < 0) : emitRun (b :: tl) = none := by
  have hoc : b.Open < b.Close := by simpa [green] using hg
  have hhigh : b.Close ≤ tl.foldl (fun a c => max a c.Close) b.Close :=
    le_foldl_maxClose tl b.Close
  have hpos : 0 < tl.foldl (fun a c => max a c.Close) b.Close - b.Open := by linarith
  have hdiv : (tl.foldl (fun a c => max a c.Close) b.Close - b.Open) / b.Open < 0 :=
    div_neg_of_pos_of_neg hpos hneg
  have hlt : (tl.foldl (fun a c => max a c.Close) b.Close - b.Open) / b.Open * 100 < 20 := by
    linarith
  simp only [emitRun]
  rw [if_neg (not_le.mpr hlt)]

theorem find_core_all_red : ∀ l : List Bar, (∀ b ∈ l, green b = false) → find_core l = .ok []
  | [] => fun _ => by simp [find_core]
  | b :: rest => fun h => by
    have hb : green b = false := h b (by simp)
    rw [find_core, dif_neg (by simp [hb])]
    exact find_core_all_red rest (fun c hc => h c (List.mem_cons_of_mem _ hc))

theorem outerSteps_le_length : ∀ l : List Bar, outerSteps l ≤ l.length
  | [] => by simp [outerSteps]
  | b :: rest => by
    by_cases hb : green b
    · rw [outerSteps, dif_pos hb]
      have h1 := outerSteps_le_length ((b :: rest).drop (runLen (b :: rest)))
      have h2 : runLen (b :: rest) = runLen rest + 1 := by simp [runLen, hb]
      simp only [List.length_drop, List.length_cons] at h1 ⊢
      omega
    · rw [outerSteps, dif_neg hb]
      have h1 := outerSteps_le_length rest
      simp only [List.length_cons]
      omega
termination_by l => l.length
decreasing_by
  all_goals
    first
      | (simp only [List.length_drop, List.length_cons]
         have hg : runLen (b :: rest) = runLen rest + 1 := by simp [runLen, hb]
         omega)
      | (simp only [List.length_cons]; omega)

theorem classifyOne_eq_spec (symbol group : String) (cp : ℚ) (sma : Option ℚ) (p : Pattern) :
    classifyOne symbol group cp sma p = classifyOneSpec symbol group cp sma p := by
  simp only [classifyOne, classifyOneSpec]
  by_cases h1 : |(cp - p.start_price) / p.start_price| * 100 ≤ 1
  · rw [if_pos h1, if_pos h1]
  · rw [if_neg h1, if_neg h1]
    by_cases h2 : |(cp - p.start_price) / p.start_price| * 100 ≤ 5 ∧ cp < p.start_price
    · rw [if_pos h2, if_pos ⟨not_le.mp h1, h2.1, h2.2⟩]
    · rw [if_neg h2, if_neg (fun hc => h2 ⟨hc.2.1, hc.2.2⟩)]

theorem classifyLoop_eq (symbol group : String) (cp : ℚ) (sma : Option ℚ) :
    ∀ ps : List Pattern, (∀ p ∈ ps, p.start_price ≠ 0) →
    classifyLoop symbol group cp sma ps =
      (ps.filterMap (classifyOneSpec symbol group cp sma), false)
  | [] => fun _ => rfl
  | p :: ps => fun h => by
    have h0 : p.start_price ≠ 0 := h p (by simp)
    have ih := classifyLoop_eq symbol group cp sma ps
      (fun q hq => h q (List.mem_cons_of_mem _ hq))
    simp only [classifyLoop, if_neg h0, classifyOne_eq_spec, List.filterMap_cons]
    cases hc : classifyOneSpec symbol group cp sma p
    · exact ih
    · simp [ih]

theorem processSymbol_alerts (env : Env) (group symbol : String) (st : V20Scanner) :
    (processSymbol env group symbol st).alerts = st.alerts ++ symbolAlerts env group symbol := by
  by_cases hp : find_20_percent_patterns_fetch env symbol = [] <;>
    simp [processSymbol, symbolAlerts, V20Scanner.init, hp]

theorem foldl_processSymbol (env : Env) (group : String) :
    ∀ (syms : List String) (st : V20Scanner),
    (syms.foldl (fun s2 sym => processSymbol env group sym s2) st).alerts =
      st.alerts ++ (syms.map (symbolAlerts env group)).flatten
  | [], st => by simp
  | sym :: syms, st => by
    simp only [List.foldl_cons, List.map_cons, List.flatten_cons]
    rw [foldl_processSymbol env group syms (processSymbol env group sym st)]
    rw [processSymbol_alerts]
    simp [List.append_assoc]

theorem foldl_groups (env : Env) :
    ∀ (stocks : List (String × List String)) (st : V20Scanner),
    (stocks.foldl
        (fun s1 gs => gs.2.foldl (fun s2 sym => processSymbol env gs.1 sym s2) s1)
        st).alerts =
      st.alerts ++ (stocks.map (fun gs => (gs.2.map (symbolAlerts env gs.1)).flatten)).flatten
  | [], st => by simp
  | gs :: stocks, st => by
    simp only [List.foldl_cons, List.map_cons, List.flatten_cons]
    rw [foldl_groups env stocks _, foldl_processSymbol]
    simp [List.append_assoc]

theorem run_scan_alerts (env : Env) (st : V20Scanner) :
    (run_scan env st).alerts = st.alerts ++ scanAlerts env := by
  unfold run_scan scanAlerts
  by_cases he : env.stocks = [] ∨ ∀ gs ∈ env.stocks, gs.2 = []
  · rw [if_pos he]
    have hz : (env.stocks.map (fun gs => (gs.2.map (symbolAlerts env gs.1)).flatten)).flatten
        = [] := by
      rcases he with he | he
      · simp [he]
      · rw [List.flatten_eq_nil_iff]
        intro l hl
        obtain ⟨gs, hgs, rfl⟩ := List.mem_map.mp hl
        simp [he gs hgs]
    simp [hz]
  · rw [if_neg he]
    exact foldl_groups env env.stocks st

theorem scanAlerts_env0 :
    scanAlerts env0 = [⟨.ACTIVATED, "AAA", "v40", 100, ⟨0, 100, 125, 25, 1⟩, none⟩] := by
  simp +decide [scanAlerts, env0, symbolAlerts, processSymbol, V20Scanner.init,
    find_20_percent_patterns_fetch, find_20_percent_patterns, find_core, runLen, runMaxClose,
    green, get_current_price_and_sma, check_alerts, classifyLoop, classifyOne, round2]
  norm_num
  simp +decide [classifyLoop, classifyOne]

/-- C1: for every price series whose bars have nonzero opens (so the
gain computation is defined), the detector emits exactly one pattern
per maximal run of green bars whose gain from the run's first open to
its running-maximum close is at least 20%, with start_date the first
bar's date, start_price that bar's open rounded, end_price the
running-maximum close rounded, gain_percent rounded, and candle count
the number of green bars of the run. -/
theorem C1_detector_matches_spec (l : List Bar) (h : ∀ b ∈ l, b.Open ≠ 0) :
    find_20_percent_patterns l = detect_spec l :=
  find_20_eq_detect_spec l h

theorem C1_detector_matches_spec_witness :
    (∀ b ∈ [(⟨0, 100, 110⟩ : Bar), ⟨1, 111, 125⟩, ⟨2, 124, 118⟩], b.Open ≠ 0) ∧
    find_20_percent_patterns [⟨0, 100, 110⟩, ⟨1, 111, 125⟩, ⟨2, 124, 118⟩] =
      detect_spec [⟨0, 100, 110⟩, ⟨1, 111, 125⟩, ⟨2, 124, 118⟩] :=
  ⟨by decide, C1_detector_matches_spec _ (by decide)⟩

/-- C2: when the current price is known and the trend gate lets the
symbol through, classification handles each pattern independently:
exactly one ACTIVATED alert when the difference is within 1%, exactly
one NEAR alert when it is strictly above 1%, within 5% and the price
is below the start, and no alert otherwise; no deduplication across
patterns. -/
theorem C2_per_pattern_classification (symbol group : String) (patterns : List Pattern)
    (cp : ℚ) (sma_200 : Option ℚ)
    (hsp : ∀ p ∈ patterns, p.start_price ≠ 0)
    (hgate : group = "v200" → ∃ m, sma_200 = some m ∧ cp < m) :
    check_alerts symbol group patterns (some cp) sma_200 =
      (patterns.filterMap (classifyOneSpec symbol group cp sma_200), false) := by
  simp only [check_alerts]
  by_cases hp : patterns = []
  · simp [hp]
  · rw [if_neg hp]
    by_cases hg : group = "v200"
    · obtain ⟨m, hm, hcp⟩ := hgate hg
      rw [if_pos hg]
      simp only [hm]
      rw [if_neg (not_le.mpr hcp)]
      exact classifyLoop_eq symbol group cp (some m) patterns hsp
    · rw [if_neg hg]
      exact classifyLoop_eq symbol group cp sma_200 patterns hsp

theorem C2_per_pattern_classification_witness :
    ((∀ p ∈ [(⟨0, 100, 125, 25, 1⟩ : Pattern), ⟨5, 104, 125, 20, 2⟩], p.start_price ≠ 0)) ∧
    check_alerts "AAA" "v40" [⟨0, 100, 125, 25, 1⟩, ⟨5, 104, 125, 20, 2⟩] (some 100) none =
      ([(⟨0, 100, 125, 25, 1⟩ : Pattern), ⟨5, 104, 125, 20, 2⟩].filterMap
        (classifyOneSpec "AAA" "v40" 100 none), false) :=
  ⟨by decide,
   C2_per_pattern_classification "AAA" "v40" _ 100 none (by decide)
     (fun hg => absurd hg (by decide))⟩

/-- C3: for the trend-filtered "v200" group, no alert is produced for
a symbol unless the 200-period moving average is known and the current
price is strictly below it. -/
theorem C3_v200_gate (symbol : String) (patterns : List Pattern)
    (current_price sma_200 : Option ℚ)
    (h : ∀ m c, sma_200 = some m → current_price = some c → m ≤ c) :
    check_alerts symbol "v200" patterns current_price sma_200 = ([], false) := by
  cases current_price with
  | none => rfl
  | some c =>
    by_cases hp : patterns = []
    · simp [check_alerts, hp]
    · cases sma_200 with
      | none => simp [check_alerts, hp]
      | some m =>
        have hm := h m c rfl rfl
        simp [check_alerts, hp, hm]

theorem C3_v200_gate_witness :
    check_alerts "AAA" "v200" [⟨0, 100, 125, 25, 1⟩] (some 60) (some 50) = ([], false) :=
  C3_v200_gate "AAA" _ (some 60) (some 50)
    (fun m c hm hc => by
      injection hm with hm
      injection hc with hc
      rw [← hm, ← hc]
      norm_num)

/-- C4: for a chronologically ordered series (with nonzero opens), the
detector's output is ordered by strictly ascending start date, the
maximal green runs never double-count a bar (their concatenation is a
sublist of the series), and each emitted pattern corresponds to
exactly one such run. -/
theorem C4_nonoverlapping_ordered (l : List Bar)
    (hdate : List.Pairwise (fun a c => a.date < c.date) l)
    (hopen : ∀ b ∈ l, b.Open ≠ 0) :
    List.Pairwise (· < ·) ((find_20_percent_patterns l).map Pattern.start_date) ∧
    List.Sublist (greenRuns l).flatten l ∧
    find_20_percent_patterns l = (greenRuns l).filterMap emitRun := by
  refine ⟨?_, greenRuns_flatten_sublist l, find_20_eq_detect_spec l hopen⟩
  rw [find_20_eq_detect_spec l hopen]
  exact detect_spec_pairwise l hdate

theorem C4_nonoverlapping_ordered_witness :
    (List.Pairwise (fun a c => a.date < c.date)
        [(⟨0, 100, 110⟩ : Bar), ⟨1, 111, 125⟩, ⟨2, 124, 118⟩] ∧
      ∀ b ∈ [(⟨0, 100, 110⟩ : Bar), ⟨1, 111, 125⟩, ⟨2, 124, 118⟩], b.Open ≠ 0) ∧
    (List.Pairwise (· < ·)
        ((find_20_percent_patterns [⟨0, 100, 110⟩, ⟨1, 111, 125⟩, ⟨2, 124, 118⟩]).map
          Pattern.start_date) ∧
      List.Sublist (greenRuns [⟨0, 100, 110⟩, ⟨1, 111, 125⟩, ⟨2, 124, 118⟩]).flatten
        [⟨0, 100, 110⟩, ⟨1, 111, 125⟩, ⟨2, 124, 118⟩] ∧
      find_20_percent_patterns [⟨0, 100, 110⟩, ⟨1, 111, 125⟩, ⟨2, 124, 118⟩] =
        (greenRuns [⟨0, 100, 110⟩, ⟨1, 111, 125⟩, ⟨2, 124, 118⟩]).filterMap emitRun) :=
  ⟨⟨by decide, by decide⟩, C4_nonoverlapping_ordered _ (by decide) (by decide)⟩

/-- C5 counterexample: a series with a malformed bar (open = −1 ≤ 0)
that is green, so its run is evaluated; no failure occurs and the
detector returns a nonempty pattern list, contradicting the claim that
the result must be empty. -/
theorem C5_counterexample :
    ((⟨0, -1, 1⟩ : Bar).Open ≤ 0 ∧ green ⟨0, -1, 1⟩ = true ∧
      0 < runLen [(⟨0, -1, 1⟩ : Bar), ⟨1, 5, 4⟩, ⟨2, 100, 125⟩]) ∧
    find_20_percent_patterns [⟨0, -1, 1⟩, ⟨1, 5, 4⟩, ⟨2, 100, 125⟩] =
      [⟨2, 100, 125, 25, 1⟩] := by
  constructor
  · exact ⟨by norm_num, by decide, by decide⟩
  · simp +decide [find_20_percent_patterns, find_core, runLen, runMaxClose, green]
    norm_num [round2]

/-- C5 amended: no malformed-bar arithmetic failure is caught during
detection.  A maximal green run that starts at a bar with negative
open computes a negative gain, so it emits no pattern, and the
detector still returns every other run's pattern — the full
`detect_spec` result, never an emptied one.  (A zero open does not
fail either: the program's float division returns an infinite gain, a
non-finite path outside this exact-arithmetic model and excluded here
by the nonzero-open hypothesis.) -/
theorem C5_negative_open_no_failure (l : List Bar) (h : ∀ b ∈ l, b.Open ≠ 0) :
    find_20_percent_patterns l = detect_spec l ∧
    ∀ r ∈ greenRuns l, ∀ b tl, r = b :: tl → b.Open < 0 → emitRun r = none := by
  refine ⟨find_20_eq_detect_spec l h, ?_⟩
  intro r hr b tl hrtl hneg
  have hg := greenRuns_head_green l r hr b tl hrtl
  subst hrtl
  exact emitRun_neg_open tl hg hneg

theorem C5_negative_open_no_failure_witness :
    (∀ b ∈ [(⟨0, -1, 1⟩ : Bar), ⟨1, 5, 4⟩, ⟨2, 100, 125⟩], b.Open ≠ 0) ∧
    (find_20_percent_patterns [⟨0, -1, 1⟩, ⟨1, 5, 4⟩, ⟨2, 100, 125⟩] =
        detect_spec [⟨0, -1, 1⟩, ⟨1, 5, 4⟩, ⟨2, 100, 125⟩] ∧
      ∀ r ∈ greenRuns [(⟨0, -1, 1⟩ : Bar), ⟨1, 5, 4⟩, ⟨2, 100, 125⟩],
        ∀ b tl, r = b :: tl → b.Open < 0 → emitRun r = none) :=
  ⟨by decide, C5_negative_open_no_failure _ (by decide)⟩

/-- C6 counterexample: `run_scan` does not create the accumulator
fresh — calling it twice on the same scanner instance leaves the first
run's alerts in the second run's report, so the two reports differ
even though the market data is identical. -/
theorem C6_counterexample :
    (run_scan env0 (run_scan env0 V20Scanner.init)).alerts ≠
      (run_scan env0 V20Scanner.init).alerts := by
  rw [run_scan_alerts, run_scan_alerts]
  simp [V20Scanner.init, scanAlerts_env0]

/-- C6 amended: the accumulator is created once per scanner instance
(in `__init__`), and `run_scan` appends its run's alerts to whatever
is already accumulated; a second invocation on the same instance
therefore reports the first run's alerts followed by the second's. -/
theorem C6_accumulator_appends (env : Env) (st : V20Scanner) :
    (run_scan env st).alerts = st.alerts ++ scanAlerts env ∧
    (run_scan env (run_scan env V20Scanner.init)).alerts = scanAlerts env ++ scanAlerts env := by
  refine ⟨run_scan_alerts env st, ?_⟩
  rw [run_scan_alerts, run_scan_alerts]
  simp [V20Scanner.init]

/-- C7: a series with no green bars — in particular the empty series —
yields an empty pattern list. -/
theorem C7_no_green_empty (l : List Bar) (h : ∀ b ∈ l, green b = false) :
    find_20_percent_patterns l = [] := by
  unfold find_20_percent_patterns
  rw [find_core_all_red l h]

theorem C7_no_green_empty_witness :
    ((∀ b ∈ ([] : List Bar), green b = false) ∧ find_20_percent_patterns [] = []) ∧
    ((∀ b ∈ [(⟨0, 100, 90⟩ : Bar), ⟨1, 50, 50⟩], green b = false) ∧
      find_20_percent_patterns [⟨0, 100, 90⟩, ⟨1, 50, 50⟩] = []) :=
  ⟨⟨by decide, C7_no_green_empty [] (by decide)⟩,
   ⟨by decide, C7_no_green_empty _ (by decide)⟩⟩

/-- C8: an empty pattern list or an unknown current price
short-circuits classification — no alert is produced and any
accumulated alert list is left unchanged. -/
theorem C8_short_circuit (symbol group : String) (patterns : List Pattern)
    (current_price sma_200 : Option ℚ)
    (h : patterns = [] ∨ current_price = none) :
    check_alerts symbol group patterns current_price sma_200 = ([], false) ∧
    ∀ acc : List Alert,
      acc ++ (check_alerts symbol group patterns current_price sma_200).1 = acc := by
  have hmain : check_alerts symbol group patterns current_price sma_200 = ([], false) := by
    cases current_price with
    | none => rfl
    | some c =>
      rcases h with h | h
      · simp [check_alerts, h]
      · simp at h
  exact ⟨hmain, fun acc => by rw [hmain]; simp⟩

theorem C8_short_circuit_witness :
    (([] : List Pattern) = [] ∨ (some (5 : ℚ)) = none) ∧
    (check_alerts "AAA" "v40" [] (some 5) none = ([], false) ∧
      ∀ acc : List Alert, acc ++ (check_alerts "AAA" "v40" [] (some 5) none).1 = acc) :=
  ⟨Or.inl rfl, C8_short_circuit "AAA" "v40" [] (some 5) none (Or.inl rfl)⟩

/-- C9: a per-symbol failure — a raising fetch, or a failure inside
the per-symbol `try` as marked by `classifyLoop`'s flag — is absorbed
by the handlers; the scan still visits every group and symbol and its
report is the full concatenation of the per-symbol contributions. -/
theorem C9_failures_do_not_abort (env : Env) (st : V20Scanner)
    (gs : String × List String) (sym : String)
    (hgs : gs ∈ env.stocks) (hsym : sym ∈ gs.2)
    (hfail : fetchFails env sym = true ∨ symbolRaises env gs.1 sym = true) :
    (run_scan env st).alerts = st.alerts ++ scanAlerts env :=
  run_scan_alerts env st

theorem C9_failures_do_not_abort_witness :
    (("v40", ["BAD", "AAA"]) ∈ env1.stocks ∧ "BAD" ∈ ["BAD", "AAA"] ∧
      fetchFails env1 "BAD" = true) ∧
    (run_scan env1 V20Scanner.init).alerts = V20Scanner.init.alerts ++ scanAlerts env1 :=
  ⟨⟨by simp [env1], by simp, by simp [fetchFails, env1]⟩,
   C9_failures_do_not_abort env1 V20Scanner.init ("v40", ["BAD", "AAA"]) "BAD"
     (by simp [env1]) (by simp) (Or.inl (by simp [fetchFails, env1]))⟩

/-- C10: the outer scan loop runs at most one iteration per bar — the
cursor strictly advances — so the detector terminates on every finite
series. -/
theorem C10_termination_bound (l : List Bar) : outerSteps l ≤ l.length :=
  outerSteps_le_length l

example : scanAlerts env1 = [⟨.ACTIVATED, "AAA", "v40", 100, ⟨0, 100, 125, 25, 1⟩, none⟩] := by
  simp +decide [scanAlerts, env1, symbolAlerts, processSymbol, V20Scanner.init,
    find_20_percent_patterns_fetch, find_20_percent_patterns, find_core, runLen, runMaxClose,
    green, get_current_price_and_sma, check_alerts, classifyLoop, classifyOne, round2]
  norm_num
  simp +decide [classifyLoop, classifyOne]

example : classifyOne "S" "v40" 99 none ⟨0, 100, 125, 25, 2⟩ =
    some ⟨.ACTIVATED, "S", "v40", 99, ⟨0, 100, 125, 25, 2⟩, none⟩ := by
  norm_num [classifyOne, abs_of_nonneg]

example : classifyOne "S" "v40" 96 none ⟨0, 100, 125, 25, 2⟩ =
    some ⟨.NEAR, "S", "v40", 96, ⟨0, 100, 125, 25, 2⟩, none⟩ := by
  norm_num [classifyOne, abs_of_nonneg]

example : classifyOne "S" "v40" 104 none ⟨0, 100, 125, 25, 2⟩ = none := by
  norm_num [classifyOne, abs_of_nonneg]
